import Mathlib

/-!
Shallow embedding of `MLB_Dyn_Ineligible_MiLB.py`, the minors-eligibility
checker: the statistics pagination loop (`fetch_fangraphs_stats`), the
eligibility predicate (`check_minors_eligibility`), the reconciliation core
(`find_ineligible_minors`) and the control flow of `main` around it.
Python dicts keyed by FanGraphs id are embedded as functions
`Int → Option StatsDict`; the pandas mapping DataFrame as a list of rows;
floats as exact rationals.
-/

namespace MLBChecker

/-- A per-player stats dict as built by `fetch_fangraphs_stats`: batting
entries carry `name` and `career_AB`, pitching entries `name` and
`career_IP`.  A missing key is `none` (read back with a default of 0 by
`check_minors_eligibility`, mirroring `stats.get(..., 0)`). -/
structure StatsDict where
  name : String
  career_AB : Option ℚ
  career_IP : Option ℚ
deriving DecidableEq, Repr

/-- One row of the Player ID mapping DataFrame after
`load_player_id_mapping`: `IDFANGRAPHS` is `none` when the cell is a
pandas missing value (NaN/None), `some s` when a string is present. -/
structure MappingRow where
  Fantrax_ID : String
  IDFANGRAPHS : Option String
  FANTRAXNAME : String
deriving DecidableEq, Repr

/-- One element of the `rosterItems` list of a team in the Fantrax
response. -/
structure RosterItem where
  id : String
  status : String
  position : String
deriving DecidableEq, Repr

/-- One value of the `rosters` mapping in the Fantrax response. -/
structure TeamData where
  teamName : String
  rosterItems : List RosterItem
deriving DecidableEq, Repr

/-- The decoded JSON body returned by `fetch_fantrax_rosters` when the
request succeeds: `rosters = none` models a dict without the `rosters`
key, and `hasOtherKeys` records whether the dict holds any other key,
which decides its Python truthiness in the `if not rosters` test of
`main`. -/
structure RosterResponse where
  hasOtherKeys : Bool
  rosters : Option (List (String × TeamData))
deriving DecidableEq, Repr

/-- Python truthiness of the response dict: non-empty iff it has the
`rosters` key or any other key. -/
def RosterResponse.truthy (r : RosterResponse) : Bool :=
  r.rosters.isSome || r.hasOtherKeys

/-- One record appended to `ineligible_players` in
`find_ineligible_minors`. -/
structure Violation where
  Player : String
  Position : String
  Team : String
  Current_Total : ℚ
  Threshold : String
deriving DecidableEq, Repr

/-- Round-half-to-even on a rational, the rule the Python builtin `round`
applies to the decimal value (ignoring binary-float representation error,
which does not affect the values exercised here). -/
def round_half_even (q : ℚ) : ℤ :=
  let f := ⌊q⌋
  let r := q - f
  if r < 1/2 then f
  else if r > 1/2 then f + 1
  else if f % 2 = 0 then f else f + 1

/-- `round(q, 1)`: round to one decimal place. -/
def round1 (q : ℚ) : ℚ :=
  (round_half_even (q * 10) : ℚ) / 10

/-- Whitespace as stripped by the Python builtin `int` around a numeric
string. -/
def is_space (c : Char) : Bool :=
  c = ' ' || c = '\t' || c = '\n' || c = '\r'

/-- Drop leading whitespace characters. -/
def drop_spaces : List Char → List Char
  | [] => []
  | c :: cs => if is_space c then drop_spaces cs else c :: cs

/-- The value of a non-empty all-digit character list, else `none`. -/
def digits_val (cs : List Char) : Option Nat :=
  if cs = [] then none
  else if cs.all (fun c => c.isDigit) then
    some (cs.foldl (fun n c => 10 * n + (c.toNat - 48)) 0)
  else none

/-- Python `int(s)` on a string: optionally signed decimal digits with
surrounding whitespace allowed; `none` when the conversion raises
`ValueError` (e.g. on `"N/A"` or `"12.0"`). -/
def py_int_of_string (s : String) : Option Int :=
  match drop_spaces (drop_spaces s.data.reverse).reverse with
  | '+' :: rest => (digits_val rest).map Int.ofNat
  | '-' :: rest => (digits_val rest).map (fun n => -(n : Int))
  | t => (digits_val t).map Int.ofNat

/-- `missing_players.add msg`: Python set insertion, embedded as an
insertion-ordered duplicate-free list. -/
def set_add (s : List String) (msg : String) : List String :=
  if msg ∈ s then s else s ++ [msg]

/-- The DataFrame row selection on equal `Fantrax_ID` followed by
`.iloc[0]`: the first row whose `Fantrax_ID` matches, if any. -/
def lookup_row (id_mapping : List MappingRow) (fantrax_id : String) :
    Option MappingRow :=
  (id_mapping.filter fun row => row.Fantrax_ID = fantrax_id).head?

/-- The membership test of the position field against the list
`[SP, RP, P]`: the pitcher classification. -/
def is_pitcher_position (pos : String) : Bool :=
  ["SP", "RP", "P"].contains pos

/-- `check_minors_eligibility(stats, is_pitcher)`: pitchers are eligible
iff career IP ≤ 50, batters iff career AB ≤ 130; a missing field reads
as 0.  Returns `(is_eligible, current_total)`. -/
def check_minors_eligibility (stats : StatsDict) (is_pitcher : Bool) :
    Bool × ℚ :=
  if is_pitcher then
    let current_ip := stats.career_IP.getD 0
    (decide (current_ip ≤ 50), current_ip)
  else
    let current_ab := stats.career_AB.getD 0
    (decide (current_ab ≤ 130), current_ab)

/-- The body of the inner per-player loop of `find_ineligible_minors`,
acting on the accumulator `(ineligible_players, missing_players)`. -/
def process_player (id_mapping : List MappingRow)
    (batting_stats pitching_stats : Int → Option StatsDict)
    (team_name : String) (acc : List Violation × List String)
    (player : RosterItem) : List Violation × List String :=
  if player.status = "MINORS" then
    let fantrax_id := player.id
    match lookup_row id_mapping fantrax_id with
    | none =>
        (acc.1, set_add acc.2
          ("Missing FanGraphs ID mapping for Fantrax ID: " ++ fantrax_id))
    | some player_row =>
        let fangraphs_id_raw := player_row.IDFANGRAPHS
        let player_name := player_row.FANTRAXNAME
        if fangraphs_id_raw = none ∨ fangraphs_id_raw = some "" then
          (acc.1, set_add acc.2
            ("No FanGraphs ID for Fantrax ID: " ++ fantrax_id))
        else
          match fangraphs_id_raw.bind py_int_of_string with
          | none => acc
          | some fangraphs_id =>
              let is_pitcher := is_pitcher_position player.position
              let stats? :=
                if is_pitcher then pitching_stats fangraphs_id
                else batting_stats fangraphs_id
              match stats? with
              | none =>
                  (acc.1, set_add acc.2
                    ("No stats for " ++ player_name ++ " (FG ID: " ++
                      toString fangraphs_id ++ ")"))
              | some stats =>
                  let res := check_minors_eligibility stats is_pitcher
                  if res.1 then acc
                  else
                    (acc.1 ++
                      [{ Player := player_name
                         Position := player.position
                         Team := team_name
                         Current_Total := round1 res.2
                         Threshold :=
                           if is_pitcher then "50 IP" else "130 AB" }],
                     acc.2)
  else acc

/-- `find_ineligible_minors(rosters, id_mapping, batting_stats,
pitching_stats)`: returns the `ineligible_players` list together with the
accumulated `missing_players` set (in insertion order).  A `None` or
key-less response short-circuits to empty output (the early
`return ineligible_players` of the function itself). -/
def find_ineligible_minors (rosters : Option RosterResponse)
    (id_mapping : List MappingRow)
    (batting_stats pitching_stats : Int → Option StatsDict) :
    List Violation × List String :=
  match rosters with
  | none => ([], [])
  | some resp =>
      match resp.rosters with
      | none => ([], [])
      | some teams =>
          teams.foldl
            (fun acc team =>
              team.2.rosterItems.foldl
                (process_player id_mapping batting_stats pitching_stats
                  team.2.teamName) acc)
            ([], [])

/-- `sorted(missing_players)`: the diagnostics as displayed. -/
def displayed_diagnostics (missing : List String) : List String :=
  missing.insertionSort (· ≤ ·)

/-- The outcome of one `requests.get` iteration of a pagination loop in
`fetch_fangraphs_stats`: `err` when the request or decode raises (the
loop breaks, keeping what was fetched), `ok data` the decoded `data`
array (`ok []` also covers a response without a `data` key, since the
`data.get` read is falsy in both cases and the loop breaks). -/
inductive Page (α : Type) where
  | err : Page α
  | ok (data : List α) : Page α
deriving DecidableEq, Repr

/-- One element of the `data` array of a batting page, with the fields
the loop reads. -/
structure BatPlayer where
  playerid : Int
  Name : String
  AB : ℚ
deriving DecidableEq, Repr

/-- One element of the `data` array of a pitching page; `IP = none`
models a record without the `IP` key (read with a default of 0). -/
structure PitPlayer where
  playerid : Int
  Name : String
  IP : Option ℚ
deriving DecidableEq, Repr

/-- The dict stored in `batting_stats` under the playerid key. -/
def bat_record (p : BatPlayer) : StatsDict :=
  { name := p.Name, career_AB := some p.AB, career_IP := none }

/-- The dict stored in `pitching_stats` under the playerid key. -/
def pit_record (p : PitPlayer) : StatsDict :=
  { name := p.Name, career_AB := none, career_IP := some (p.IP.getD 0) }

/-- Python dict assignment `d[k] = v` on an `Int`-keyed dict. -/
def dict_insert (d : Int → Option StatsDict) (k : Int) (v : StatsDict) :
    Int → Option StatsDict :=
  fun x => if x = k then some v else d x

/-- The `while True` pagination loop shared by the batting and pitching
fetches: stop on a failed request or a falsy `data` array, otherwise
insert every record of the page into the dict and continue with the next
page. -/
def fetch_stats_loop {α : Type} (key : α → Int) (toRec : α → StatsDict)
    (d : Int → Option StatsDict) : List (Page α) → (Int → Option StatsDict)
  | [] => d
  | Page.err :: _ => d
  | Page.ok [] :: _ => d
  | Page.ok (r :: rs) :: rest =>
      fetch_stats_loop key toRec
        ((r :: rs).foldl (fun d p => dict_insert d (key p) (toRec p)) d) rest

/-- The batting half of `fetch_fangraphs_stats`, starting from the empty
`batting_stats` dict, given the successive page responses. -/
def fetch_batting_stats (pages : List (Page BatPlayer)) :
    Int → Option StatsDict :=
  fetch_stats_loop (fun p => p.playerid) bat_record (fun _ => none) pages

/-- The pitching half of `fetch_fangraphs_stats`, starting from the empty
`pitching_stats` dict. -/
def fetch_pitching_stats (pages : List (Page PitPlayer)) :
    Int → Option StatsDict :=
  fetch_stats_loop (fun p => p.playerid) pit_record (fun _ => none) pages

/-- A page whose `data` array is non-empty, so the loop consumes it and
continues. -/
def nonempty_ok {α : Type} : Page α → Prop
  | Page.ok (_ :: _) => True
  | _ => False

instance {α : Type} (p : Page α) : Decidable (nonempty_ok p) := by
  cases p with
  | err => exact isFalse (fun h => h)
  | ok data => cases data with
    | nil => exact isFalse (fun h => h)
    | cons r rs => exact isTrue trivial

/-- All records of a sequence of pages, in fetch order. -/
def all_records {α : Type} : List (Page α) → List α
  | [] => []
  | Page.err :: rest => all_records rest
  | Page.ok recs :: rest => recs ++ all_records rest

/-- The control flow of `main` around the reconciler: abort (`none`) when
the roster response is `None` or falsy (`if not rosters`), or when the
mapping table is empty; otherwise run `find_ineligible_minors` and
produce its output. -/
def main_analysis (rosters : Option RosterResponse)
    (id_mapping : List MappingRow)
    (batting_stats pitching_stats : Int → Option StatsDict) :
    Option (List Violation × List String) :=
  match rosters with
  | none => none
  | some resp =>
      if resp.truthy = false then none
      else if id_mapping = [] then none
      else some (find_ineligible_minors (some resp) id_mapping
        batting_stats pitching_stats)

/-- Specification-side characterization of the contribution of one roster
entry to the violation list: `some v` exactly when `process_player` appends `v`,
`none` when it appends nothing (skip or diagnostic-only). -/
def entry_violation (id_mapping : List MappingRow)
    (batting_stats pitching_stats : Int → Option StatsDict)
    (team_name : String) (player : RosterItem) : Option Violation :=
  if player.status = "MINORS" then
    match lookup_row id_mapping player.id with
    | none => none
    | some player_row =>
        if player_row.IDFANGRAPHS = none ∨ player_row.IDFANGRAPHS = some ""
        then none
        else
          match player_row.IDFANGRAPHS.bind py_int_of_string with
          | none => none
          | some fangraphs_id =>
              let is_pitcher := is_pitcher_position player.position
              let stats? :=
                if is_pitcher then pitching_stats fangraphs_id
                else batting_stats fangraphs_id
              match stats? with
              | none => none
              | some stats =>
                  let res := check_minors_eligibility stats is_pitcher
                  if res.1 then none
                  else
                    some
                      { Player := player_row.FANTRAXNAME
                        Position := player.position
                        Team := team_name
                        Current_Total := round1 res.2
                        Threshold :=
                          if is_pitcher then "50 IP" else "130 AB" }
  else none

theorem process_player_fst (m : List MappingRow)
    (b p : Int → Option StatsDict) (tn : String)
    (acc : List Violation × List String) (pl : RosterItem) :
    (process_player m b p tn acc pl).1
      = acc.1 ++ (entry_violation m b p tn pl).toList := by
  by_cases hs : pl.status = "MINORS"
  · rcases hrow : lookup_row m pl.id with _ | row
    · simp [process_player, entry_violation, hs, hrow]
    · by_cases hmiss : row.IDFANGRAPHS = none ∨ row.IDFANGRAPHS = some ""
      · simp [process_player, entry_violation, hs, hrow, hmiss]
      · rcases hparse : row.IDFANGRAPHS.bind py_int_of_string with _ | fid
        · simp [process_player, entry_violation, hs, hrow, hmiss, hparse]
        · cases hpos : is_pitcher_position pl.position with
          | false =>
              rcases hstats : b fid with _ | st
              · simp [process_player, entry_violation, hs, hrow, hmiss,
                  hparse, hpos, hstats]
              · by_cases helig : (check_minors_eligibility st false).1 = true
                all_goals simp [process_player, entry_violation, hs, hrow,
                  hmiss, hparse, hpos, hstats, helig]
          | true =>
              rcases hstats : p fid with _ | st
              · simp [process_player, entry_violation, hs, hrow, hmiss,
                  hparse, hpos, hstats]
              · by_cases helig : (check_minors_eligibility st true).1 = true
                all_goals simp [process_player, entry_violation, hs, hrow,
                  hmiss, hparse, hpos, hstats, helig]
  · simp [process_player, entry_violation, hs]

theorem process_player_snd (m : List MappingRow)
    (b p : Int → Option StatsDict) (tn : String)
    (acc : List Violation × List String) (pl : RosterItem) :
    (process_player m b p tn acc pl).2 = acc.2
      ∨ ∃ msg, (process_player m b p tn acc pl).2 = set_add acc.2 msg := by
  by_cases hs : pl.status = "MINORS"
  · rcases hrow : lookup_row m pl.id with _ | row
    · exact Or.inr ⟨"Missing FanGraphs ID mapping for Fantrax ID: " ++ pl.id,
        by simp [process_player, hs, hrow]⟩
    · by_cases hmiss : row.IDFANGRAPHS = none ∨ row.IDFANGRAPHS = some ""
      · exact Or.inr ⟨"No FanGraphs ID for Fantrax ID: " ++ pl.id,
          by simp [process_player, hs, hrow, hmiss]⟩
      · rcases hparse : row.IDFANGRAPHS.bind py_int_of_string with _ | fid
        · exact Or.inl (by simp [process_player, hs, hrow, hmiss, hparse])
        · cases hpos : is_pitcher_position pl.position with
          | false =>
              rcases hstats : b fid with _ | st
              · exact Or.inr ⟨"No stats for " ++ row.FANTRAXNAME ++
                    " (FG ID: " ++ toString fid ++ ")", by
                  simp [process_player, hs, hrow, hmiss, hparse, hpos,
                    hstats]⟩
              · by_cases helig : (check_minors_eligibility st false).1 = true
                all_goals exact Or.inl (by
                  simp [process_player, hs, hrow, hmiss, hparse, hpos,
                    hstats, helig])
          | true =>
              rcases hstats : p fid with _ | st
              · exact Or.inr ⟨"No stats for " ++ row.FANTRAXNAME ++
                    " (FG ID: " ++ toString fid ++ ")", by
                  simp [process_player, hs, hrow, hmiss, hparse, hpos,
                    hstats]⟩
              · by_cases helig : (check_minors_eligibility st true).1 = true
                all_goals exact Or.inl (by
                  simp [process_player, hs, hrow, hmiss, hparse, hpos,
                    hstats, helig])
  · exact Or.inl (by simp [process_player, hs])

theorem foldl_process_fst (m : List MappingRow)
    (b p : Int → Option StatsDict) (tn : String) (items : List RosterItem) :
    ∀ acc : List Violation × List String,
      (items.foldl (process_player m b p tn) acc).1
        = acc.1 ++ items.filterMap (entry_violation m b p tn) := by
  induction items with
  | nil => intro acc; simp
  | cons x xs ih =>
      intro acc
      rw [List.foldl_cons, ih, process_player_fst, List.filterMap_cons]
      rcases h : entry_violation m b p tn x with _ | v <;> simp [h]

theorem find_fst (hk : Bool) (teams : List (String × TeamData))
    (m : List MappingRow) (b p : Int → Option StatsDict) :
    (find_ineligible_minors (some ⟨hk, some teams⟩) m b p).1
      = teams.flatMap
          (fun t => t.2.rosterItems.filterMap (entry_violation m b p t.2.teamName)) := by
  show (teams.foldl _ (([], []) : List Violation × List String)).1 = _
  suffices h : ∀ acc : List Violation × List String,
      (teams.foldl
        (fun acc team =>
          team.2.rosterItems.foldl
            (process_player m b p team.2.teamName) acc) acc).1
        = acc.1 ++ teams.flatMap
            (fun t => t.2.rosterItems.filterMap (entry_violation m b p t.2.teamName)) by
    simpa using h ([], [])
  induction teams with
  | nil => intro acc; simp
  | cons t ts ih =>
      intro acc
      rw [List.foldl_cons, ih, foldl_process_fst, List.flatMap_cons,
        List.append_assoc]

theorem set_add_nodup {s : List String} {msg : String} (h : s.Nodup) :
    (set_add s msg).Nodup := by
  unfold set_add
  split
  · exact h
  · rename_i hmem
    simp [List.nodup_append, h, hmem]

theorem process_player_snd_nodup (m : List MappingRow)
    (b p : Int → Option StatsDict) (tn : String)
    (acc : List Violation × List String) (pl : RosterItem)
    (h : acc.2.Nodup) : (process_player m b p tn acc pl).2.Nodup := by
  rcases process_player_snd m b p tn acc pl with heq | ⟨msg, heq⟩
  · rw [heq]; exact h
  · rw [heq]; exact set_add_nodup h

theorem foldl_process_snd_nodup (m : List MappingRow)
    (b p : Int → Option StatsDict) (tn : String) (items : List RosterItem) :
    ∀ acc : List Violation × List String, acc.2.Nodup →
      ((items.foldl (process_player m b p tn) acc).2).Nodup := by
  induction items with
  | nil => intro acc h; simpa using h
  | cons x xs ih =>
      intro acc h
      rw [List.foldl_cons]
      exact ih _ (process_player_snd_nodup m b p tn acc x h)

theorem find_snd_nodup (r : Option RosterResponse) (m : List MappingRow)
    (b p : Int → Option StatsDict) :
    (find_ineligible_minors r m b p).2.Nodup := by
  rcases r with _ | ⟨hk, _ | teams⟩
  · simp [find_ineligible_minors]
  · simp [find_ineligible_minors]
  · show (teams.foldl _ (([], []) : List Violation × List String)).2.Nodup
    suffices h : ∀ acc : List Violation × List String, acc.2.Nodup →
        ((teams.foldl
          (fun acc team =>
            team.2.rosterItems.foldl
              (process_player m b p team.2.teamName) acc) acc).2).Nodup from
      h ([], []) (by simp)
    induction teams with
    | nil => intro acc h; simpa using h
    | cons t ts ih =>
        intro acc h
        rw [List.foldl_cons]
        exact ih _ (foldl_process_snd_nodup m b p t.2.teamName
          t.2.rosterItems acc h)

theorem foldl_dict_insert_lookup {α : Type} (key : α → Int)
    (toRec : α → StatsDict) (recs : List α) :
    ∀ (d : Int → Option StatsDict) (k : Int),
      (recs.foldl (fun d' q => dict_insert d' (key q) (toRec q)) d) k
        = match recs.reverse.find? (fun q => key q == k) with
          | some q => some (toRec q)
          | none => d k := by
  induction recs with
  | nil => intro d k; simp
  | cons q qs ih =>
      intro d k
      rw [List.foldl_cons, ih]
      rw [List.reverse_cons, List.find?_append]
      rcases h : qs.reverse.find? (fun q' => key q' == k) with _ | q'
      · by_cases hk : key q = k
        · simp [h, hk, Option.or, dict_insert]
        · simp [h, hk, Option.or, dict_insert, Ne.symm hk]
      · simp [h, Option.or]

theorem fetch_stats_loop_terminated {α : Type} (key : α → Int)
    (toRec : α → StatsDict) (t : Page α) (ht : ¬ nonempty_ok t)
    (ps : List (Page α)) :
    (∀ q ∈ ps, nonempty_ok q) →
    ∀ (d : Int → Option StatsDict) (tail : List (Page α)) (k : Int),
      fetch_stats_loop key toRec d (ps ++ t :: tail) k
        = match (all_records ps).reverse.find? (fun q => key q == k) with
          | some q => some (toRec q)
          | none => d k := by
  induction ps with
  | nil =>
      intro _ d tail k
      rcases t with _ | (_ | ⟨r, rs⟩)
      · simp [fetch_stats_loop, all_records]
      · simp [fetch_stats_loop, all_records]
      · exact absurd trivial ht
  | cons q qs ih =>
      intro hq d tail k
      have hq0 : nonempty_ok q := hq q (by simp)
      rcases q with _ | (_ | ⟨r, rs⟩)
      · exact absurd hq0 (by simp [nonempty_ok])
      · exact absurd hq0 (by simp [nonempty_ok])
      · rw [List.cons_append]
        show fetch_stats_loop key toRec _ (qs ++ t :: tail) k = _
        rw [ih (fun q' hq' => hq q' (by simp [hq'])) _ tail k]
        rw [foldl_dict_insert_lookup]
        show _ = (match ((r :: rs) ++ all_records qs).reverse.find?
          (fun q' => key q' == k) with
          | some q' => some (toRec q')
          | none => d k)
        rw [List.reverse_append, List.find?_append]
        rcases h : (all_records qs).reverse.find? (fun q' => key q' == k)
          with _ | q'
        · simp [Option.or]
        · simp [Option.or]

/-- The last record with a given provider id in a record list, i.e. the
one a sequence of dict assignments leaves in place. -/
def last_record_with_key {α : Type} (key : α → Int) (recs : List α)
    (k : Int) : Option α :=
  recs.reverse.find? (fun q => key q == k)

/-- C1: the stats record of a pitcher is eligible iff career innings
pitched is at most 50 and that of a batter iff career at-bats is at most 130, both
boundaries inclusive; a record missing the relevant field is read as 0
and hence eligible (with total reported as 0). -/
theorem claim_C1 (stats : StatsDict) (ip ab : ℚ) :
    (stats.career_IP = some ip →
      ((check_minors_eligibility stats true).1 = true ↔ ip ≤ 50))
    ∧ (stats.career_AB = some ab →
      ((check_minors_eligibility stats false).1 = true ↔ ab ≤ 130))
    ∧ (stats.career_IP = none →
        check_minors_eligibility stats true = (true, 0))
    ∧ (stats.career_AB = none →
        check_minors_eligibility stats false = (true, 0)) := by
  refine ⟨fun h => ?_, fun h => ?_, fun h => ?_, fun h => ?_⟩ <;>
    simp [check_minors_eligibility, h]

theorem claim_C1_witness :
    ((check_minors_eligibility ⟨"x", none, some 50⟩ true).1 = true ↔
      (50 : ℚ) ≤ 50)
    ∧ ((check_minors_eligibility ⟨"x", some 130, none⟩ false).1 = true ↔
      (130 : ℚ) ≤ 130) :=
  ⟨(claim_C1 ⟨"x", none, some 50⟩ 50 0).1 rfl,
   (claim_C1 ⟨"x", some 130, none⟩ 0 130).2.1 rfl⟩

/-- C2: a minors-slot entry whose mapping row is present with a
non-empty, non-integer-parseable provider id (e.g. `"N/A"`) is skipped
silently — no violation and no diagnostic — whereas a row whose provider
id is missing or empty produces the "No FanGraphs ID" diagnostic. -/
theorem claim_C2 (m : List MappingRow) (b p : Int → Option StatsDict)
    (tn : String) (acc : List Violation × List String) (pl : RosterItem)
    (row : MappingRow) (s : String)
    (hs : pl.status = "MINORS")
    (hrow : lookup_row m pl.id = some row)
    (hraw : row.IDFANGRAPHS = some s) (hne : s ≠ "")
    (hparse : py_int_of_string s = none) :
    process_player m b p tn acc pl = acc
    ∧ ∀ (m' : List MappingRow) (row' : MappingRow)
        (acc' : List Violation × List String),
        lookup_row m' pl.id = some row' →
        (row'.IDFANGRAPHS = none ∨ row'.IDFANGRAPHS = some "") →
        process_player m' b p tn acc' pl
          = (acc'.1, set_add acc'.2
              ("No FanGraphs ID for Fantrax ID: " ++ pl.id)) := by
  constructor
  · have hmiss : ¬(row.IDFANGRAPHS = none ∨ row.IDFANGRAPHS = some "") := by
      simp [hraw, hne]
    have hbind : row.IDFANGRAPHS.bind py_int_of_string = none := by
      simp [hraw, hparse]
    simp [process_player, hs, hrow, hmiss, hbind]
  · intro m' row' acc' hrow' hmiss'
    simp [process_player, hs, hrow', hmiss']

theorem claim_C2_witness :
    process_player [⟨"f1", some "N/A", "Guy"⟩] (fun _ => none)
        (fun _ => none) "T" ([], []) ⟨"f1", "MINORS", "SP"⟩ = ([], [])
    ∧ process_player [⟨"f1", none, "Guy"⟩] (fun _ => none)
        (fun _ => none) "T" ([], []) ⟨"f1", "MINORS", "SP"⟩
        = ([], set_add [] ("No FanGraphs ID for Fantrax ID: " ++ "f1")) := by
  have h := claim_C2 [⟨"f1", some "N/A", "Guy"⟩] (fun _ => none)
    (fun _ => none) "T" ([], []) ⟨"f1", "MINORS", "SP"⟩
    ⟨"f1", some "N/A", "Guy"⟩ "N/A" rfl rfl rfl (by decide) (by decide)
  exact ⟨h.1, h.2 [⟨"f1", none, "Guy"⟩] ⟨"f1", none, "Guy"⟩ ([], []) rfl
    (Or.inl rfl)⟩

/-- C3 as stated is false: a roster response that is a non-empty dict
missing the `rosters` key (here modelled with `hasOtherKeys = true`) does
not abort the run — `main` proceeds, the reconciler returns an empty
violation list, and the run produces that output. -/
theorem claim_C3_counterexample :
    main_analysis (some ⟨true, none⟩) [⟨"f1", some "10", "Guy"⟩]
        (fun _ => none) (fun _ => none) = some ([], [])
    ∧ main_analysis (some ⟨true, none⟩) [⟨"f1", some "10", "Guy"⟩]
        (fun _ => none) (fun _ => none) ≠ none := by
  constructor
  · rfl
  · intro h
    exact Option.noConfusion h

/-- C3 amended: a roster fetch that errors (no response) or returns a
falsy (empty) response is fatal — the run aborts with no output; but a
non-empty malformed response missing the `rosters` key is not fatal: the
run continues and produces an empty violation list. -/
theorem claim_C3_amended (m : List MappingRow)
    (b p : Int → Option StatsDict) (resp : RosterResponse) :
    main_analysis none m b p = none
    ∧ (resp.truthy = false → main_analysis (some resp) m b p = none)
    ∧ (resp.truthy = true → resp.rosters = none → m ≠ [] →
        main_analysis (some resp) m b p = some ([], [])) := by
  refine ⟨rfl, fun h => ?_, fun ht hr hm => ?_⟩
  · simp [main_analysis, h]
  · simp [main_analysis, ht, hr, hm, find_ineligible_minors]

theorem claim_C3_amended_witness :
    main_analysis none [⟨"f1", some "10", "Guy"⟩] (fun _ => none)
        (fun _ => none) = none
    ∧ main_analysis (some ⟨false, none⟩) [⟨"f1", some "10", "Guy"⟩]
        (fun _ => none) (fun _ => none) = none
    ∧ main_analysis (some ⟨true, none⟩) [⟨"f1", some "10", "Guy"⟩]
        (fun _ => none) (fun _ => none) = some ([], []) := by
  have h1 := claim_C3_amended [⟨"f1", some "10", "Guy"⟩] (fun _ => none)
    (fun _ => none) ⟨false, none⟩
  have h2 := claim_C3_amended [⟨"f1", some "10", "Guy"⟩] (fun _ => none)
    (fun _ => none) ⟨true, none⟩
  exact ⟨h1.1, h1.2.1 rfl, h2.2.2 rfl rfl (by decide)⟩

/-- C4: for an evaluable minors-slot entry the violation is emitted
exactly when the unrounded statistic exceeds the threshold, and it
carries the display name from the mapping row, the position of the
entry, the team name, the statistic rounded to one decimal place and the label "50 IP"
(pitchers) or "130 AB" (batters); concretely 50.049 exceeds 50 and
rounds to 50.0 while 50.06 rounds to 50.1. -/
theorem claim_C4 (m : List MappingRow) (b p : Int → Option StatsDict)
    (tn : String) (acc : List Violation × List String) (pl : RosterItem)
    (row : MappingRow) (fid : Int) (st : StatsDict) (ip ab : ℚ)
    (hs : pl.status = "MINORS")
    (hrow : lookup_row m pl.id = some row)
    (hparse : row.IDFANGRAPHS.bind py_int_of_string = some fid) :
    (is_pitcher_position pl.position = true → p fid = some st →
      st.career_IP = some ip →
      ((ip ≤ 50 → process_player m b p tn acc pl = acc)
       ∧ (50 < ip → process_player m b p tn acc pl
            = (acc.1 ++ [⟨row.FANTRAXNAME, pl.position, tn, round1 ip,
                "50 IP"⟩], acc.2))))
    ∧ (is_pitcher_position pl.position = false → b fid = some st →
      st.career_AB = some ab →
      ((ab ≤ 130 → process_player m b p tn acc pl = acc)
       ∧ (130 < ab → process_player m b p tn acc pl
            = (acc.1 ++ [⟨row.FANTRAXNAME, pl.position, tn, round1 ab,
                "130 AB"⟩], acc.2))))
    ∧ round1 (50.049 : ℚ) = 50 ∧ round1 (50.06 : ℚ) = 50.1
    ∧ (50 : ℚ) < 50.049 ∧ (50 : ℚ) < 50.06 := by
  have hmiss : ¬(row.IDFANGRAPHS = none ∨ row.IDFANGRAPHS = some "") := by
    rcases hempty : row.IDFANGRAPHS with _ | s
    · simp [hempty] at hparse
    · rcases hse : decide (s = "") with _ | _
      · simp [Ne.symm]
        intro hcontr
        simp [hcontr] at hse
      · have hs0 : s = "" := of_decide_eq_true hse
        rw [hempty, hs0] at hparse
        simp [py_int_of_string, drop_spaces, digits_val] at hparse
  refine ⟨fun hpos hstat hip => ⟨fun hle => ?_, fun hgt => ?_⟩,
    fun hpos hstat hab => ⟨fun hle => ?_, fun hgt => ?_⟩, ?_, ?_, ?_, ?_⟩
  · have helig : (check_minors_eligibility st true).1 = true := by
      simp [check_minors_eligibility, hip, hle]
    simp [process_player, hs, hrow, hmiss, hparse, hpos, hstat, helig]
  · have helig : ¬(check_minors_eligibility st true).1 = true := by
      simp [check_minors_eligibility, hip]
      exact hgt
    have hres : (check_minors_eligibility st true).2 = ip := by
      simp [check_minors_eligibility, hip]
    simp [process_player, hs, hrow, hmiss, hparse, hpos, hstat, helig, hres]
  · have helig : (check_minors_eligibility st false).1 = true := by
      simp [check_minors_eligibility, hab, hle]
    simp [process_player, hs, hrow, hmiss, hparse, hpos, hstat, helig]
  · have helig : ¬(check_minors_eligibility st false).1 = true := by
      simp [check_minors_eligibility, hab]
      exact hgt
    have hres : (check_minors_eligibility st false).2 = ab := by
      simp [check_minors_eligibility, hab]
    simp [process_player, hs, hrow, hmiss, hparse, hpos, hstat, helig, hres]
  · norm_num [round1, round_half_even]
  · norm_num [round1, round_half_even]
  · norm_num
  · norm_num

theorem claim_C4_witness :
    process_player [⟨"f1", some "10", "Ace"⟩] (fun _ => none)
        (fun k => if k = 10 then some ⟨"A", none, some 62⟩ else none)
        "T" ([], []) ⟨"f1", "MINORS", "SP"⟩
      = ([⟨"Ace", "SP", "T", round1 62, "50 IP"⟩], [])
    ∧ round1 (50.049 : ℚ) = 50 ∧ round1 (50.06 : ℚ) = 50.1 := by
  have h := claim_C4 [⟨"f1", some "10", "Ace"⟩] (fun _ => none)
    (fun k => if k = 10 then some ⟨"A", none, some 62⟩ else none)
    "T" ([], []) ⟨"f1", "MINORS", "SP"⟩ ⟨"f1", some "10", "Ace"⟩ 10
    ⟨"A", none, some 62⟩ 62 0 rfl rfl (by decide)
  refine ⟨?_, h.2.2.1, h.2.2.2.1⟩
  have h2 := (h.1 rfl rfl rfl).2 (by decide)
  simpa using h2

/-- C5: for a minors-slot entry with a parsed integer provider id, the
pitcher classification holds iff the position is SP, RP or P; the id is
looked up in the pitching index for pitchers and the batting index for
batters, and when absent the "No stats" diagnostic is emitted and the
entry produces no violation. -/
theorem claim_C5 (m : List MappingRow) (b p : Int → Option StatsDict)
    (tn : String) (acc : List Violation × List String) (pl : RosterItem)
    (row : MappingRow) (fid : Int)
    (hs : pl.status = "MINORS")
    (hrow : lookup_row m pl.id = some row)
    (hparse : row.IDFANGRAPHS.bind py_int_of_string = some fid) :
    (is_pitcher_position pl.position = true ↔
      (pl.position = "SP" ∨ pl.position = "RP" ∨ pl.position = "P"))
    ∧ (is_pitcher_position pl.position = true → p fid = none →
        process_player m b p tn acc pl
          = (acc.1, set_add acc.2 ("No stats for " ++ row.FANTRAXNAME ++
              " (FG ID: " ++ toString fid ++ ")")))
    ∧ (is_pitcher_position pl.position = false → b fid = none →
        process_player m b p tn acc pl
          = (acc.1, set_add acc.2 ("No stats for " ++ row.FANTRAXNAME ++
              " (FG ID: " ++ toString fid ++ ")"))) := by
  have hmiss : ¬(row.IDFANGRAPHS = none ∨ row.IDFANGRAPHS = some "") := by
    rcases hempty : row.IDFANGRAPHS with _ | s
    · simp [hempty] at hparse
    · rcases hse : decide (s = "") with _ | _
      · simp [Ne.symm]
        intro hcontr
        simp [hcontr] at hse
      · have hs0 : s = "" := of_decide_eq_true hse
        rw [hempty, hs0] at hparse
        simp [py_int_of_string, drop_spaces, digits_val] at hparse
  refine ⟨by simp [is_pitcher_position], fun hpos hstat => ?_,
    fun hpos hstat => ?_⟩
  · simp [process_player, hs, hrow, hmiss, hparse, hpos, hstat]
  · simp [process_player, hs, hrow, hmiss, hparse, hpos, hstat]

theorem claim_C5_witness :
    (is_pitcher_position "RP" = true ↔
      ("RP" = "SP" ∨ ("RP" : String) = "RP" ∨ ("RP" : String) = "P"))
    ∧ process_player [⟨"f1", some "10", "Guy"⟩] (fun _ => none)
        (fun _ => none) "T" ([], []) ⟨"f1", "MINORS", "RP"⟩
        = ([], set_add [] ("No stats for " ++ "Guy" ++ " (FG ID: " ++
            toString (10 : Int) ++ ")")) := by
  have h := claim_C5 [⟨"f1", some "10", "Guy"⟩] (fun _ => none)
    (fun _ => none) "T" ([], []) ⟨"f1", "MINORS", "RP"⟩
    ⟨"f1", some "10", "Guy"⟩ 10 rfl rfl (by decide)
  exact ⟨h.1, h.2.1 rfl rfl⟩

/-- C6: a roster entry whose status is not the minors-slot designation
produces no violation and no diagnostic — the accumulator passes through
unchanged whatever the mapping and statistics say. -/
theorem claim_C6 (m : List MappingRow) (b p : Int → Option StatsDict)
    (tn : String) (acc : List Violation × List String) (pl : RosterItem)
    (h : pl.status ≠ "MINORS") :
    process_player m b p tn acc pl = acc := by
  simp [process_player, h]

theorem claim_C6_witness :
    process_player [⟨"f1", some "10", "Guy"⟩] (fun _ => none)
        (fun _ => none) "T" ([], []) ⟨"f1", "ACTIVE", "SP"⟩ = ([], []) :=
  claim_C6 [⟨"f1", some "10", "Guy"⟩] (fun _ => none) (fun _ => none)
    "T" ([], []) ⟨"f1", "ACTIVE", "SP"⟩ (by decide)

/-- C10: with duplicate `Fantrax_ID` rows in the mapping table, the
reconciler uses the first matching row (its provider id and display
name) and behaves exactly as if only that row were present — no error
and no diagnostic about the duplication. -/
theorem claim_C10 (pre mid post : List MappingRow) (r1 r2 : MappingRow)
    (b p : Int → Option StatsDict) (tn : String)
    (acc : List Violation × List String) (pl : RosterItem)
    (hpre : ∀ r ∈ pre, r.Fantrax_ID ≠ pl.id)
    (h1 : r1.Fantrax_ID = pl.id) (h2 : r2.Fantrax_ID = pl.id) :
    lookup_row (pre ++ r1 :: mid ++ r2 :: post) pl.id = some r1
    ∧ process_player (pre ++ r1 :: mid ++ r2 :: post) b p tn acc pl
        = process_player [r1] b p tn acc pl := by
  have hl : lookup_row (pre ++ r1 :: mid ++ r2 :: post) pl.id = some r1 := by
    unfold lookup_row
    rw [List.filter_append]
    have hpre' : (pre.filter fun row => row.Fantrax_ID = pl.id) = [] :=
      List.filter_eq_nil_iff.mpr (by intro a ha; simpa using hpre a ha)
    simp [hpre', List.filter_cons, h1]
  have hl1 : lookup_row [r1] pl.id = some r1 := by
    simp [lookup_row, List.filter_cons, h1]
  refine ⟨hl, ?_⟩
  simp only [process_player, hl, hl1]

theorem claim_C10_witness :
    lookup_row [⟨"g0", some "3", "Other"⟩, ⟨"f1", some "N/A", "First"⟩,
        ⟨"f1", some "7", "Second"⟩] "f1"
      = some ⟨"f1", some "N/A", "First"⟩
    ∧ process_player [⟨"g0", some "3", "Other"⟩,
        ⟨"f1", some "N/A", "First"⟩, ⟨"f1", some "7", "Second"⟩]
        (fun _ => none) (fun _ => none) "T" ([], [])
        ⟨"f1", "MINORS", "SS"⟩
      = process_player [⟨"f1", some "N/A", "First"⟩] (fun _ => none)
          (fun _ => none) "T" ([], []) ⟨"f1", "MINORS", "SS"⟩ := by
  have h := claim_C10 [⟨"g0", some "3", "Other"⟩] [] []
    ⟨"f1", some "N/A", "First"⟩ ⟨"f1", some "7", "Second"⟩
    (fun _ => none) (fun _ => none) "T" ([], []) ⟨"f1", "MINORS", "SS"⟩
    (by decide) rfl rfl
  simpa using h

/-- C7: the reconciler is deterministic — identical inputs give identical
output — and order-stable: the violation list is the concatenation, team
by team in input order and entry by entry in input order, of the
individual contribution of each entry. -/
theorem claim_C7 (r : Option RosterResponse) (m : List MappingRow)
    (b p : Int → Option StatsDict) (hk : Bool)
    (teams : List (String × TeamData)) :
    find_ineligible_minors r m b p = find_ineligible_minors r m b p
    ∧ (find_ineligible_minors (some ⟨hk, some teams⟩) m b p).1
        = teams.flatMap
            (fun t => t.2.rosterItems.filterMap
              (entry_violation m b p t.2.teamName)) :=
  ⟨rfl, find_fst hk teams m b p⟩

/-- C8: statistics pagination stops at the first page with an empty
`data` array, ignoring anything after it, and the resulting index maps
each provider id to the record of its last occurrence in the pages
fetched before the stop (union with last-write-wins); a page-fetch error
likewise truncates the sequence keeping everything already fetched.
Stated for both the batting and the pitching loop. -/
theorem claim_C8 (psb : List (Page BatPlayer))
    (psp : List (Page PitPlayer)) (restb restb2 : List (Page BatPlayer))
    (restp restp2 : List (Page PitPlayer)) (kb kp : Int)
    (hb : ∀ q ∈ psb, nonempty_ok q) (hp : ∀ q ∈ psp, nonempty_ok q) :
    fetch_batting_stats (psb ++ Page.ok [] :: restb) kb
      = Option.map bat_record
          (last_record_with_key (fun q => q.playerid) (all_records psb) kb)
    ∧ fetch_batting_stats (psb ++ Page.err :: restb2) kb
      = Option.map bat_record
          (last_record_with_key (fun q => q.playerid) (all_records psb) kb)
    ∧ fetch_pitching_stats (psp ++ Page.ok [] :: restp) kp
      = Option.map pit_record
          (last_record_with_key (fun q => q.playerid) (all_records psp) kp)
    ∧ fetch_pitching_stats (psp ++ Page.err :: restp2) kp
      = Option.map pit_record
          (last_record_with_key (fun q => q.playerid) (all_records psp) kp) := by
  refine ⟨?_, ?_, ?_, ?_⟩ <;>
    [rw [fetch_batting_stats,
      fetch_stats_loop_terminated _ _ (Page.ok []) (by simp [nonempty_ok])
        psb hb _ restb kb];
     rw [fetch_batting_stats,
      fetch_stats_loop_terminated _ _ Page.err (by simp [nonempty_ok])
        psb hb _ restb2 kb];
     rw [fetch_pitching_stats,
      fetch_stats_loop_terminated _ _ (Page.ok []) (by simp [nonempty_ok])
        psp hp _ restp kp];
     rw [fetch_pitching_stats,
      fetch_stats_loop_terminated _ _ Page.err (by simp [nonempty_ok])
        psp hp _ restp2 kp]] <;>
  · rw [last_record_with_key]
    rcases h : List.find? _ _ with _ | q <;> simp [h]

theorem claim_C8_witness :
    fetch_batting_stats [Page.ok [⟨1, "A", 10⟩, ⟨2, "B", 20⟩],
        Page.ok [⟨1, "A2", 30⟩], Page.ok [], Page.ok [⟨3, "C", 5⟩]] 1
      = Option.map bat_record
          (last_record_with_key (fun q => q.playerid)
            (all_records [Page.ok [⟨1, "A", 10⟩, ⟨2, "B", 20⟩],
              Page.ok [⟨1, "A2", 30⟩]]) 1)
    ∧ fetch_pitching_stats [Page.ok [⟨7, "D", some 61⟩], Page.err,
        Page.ok [⟨8, "E", none⟩]] 7
      = Option.map pit_record
          (last_record_with_key (fun q => q.playerid)
            (all_records [Page.ok [⟨7, "D", some 61⟩]]) 7) := by
  have h := claim_C8 [Page.ok [⟨1, "A", 10⟩, ⟨2, "B", 20⟩],
      Page.ok [⟨1, "A2", 30⟩]] [Page.ok [⟨7, "D", some 61⟩]]
    [Page.ok [⟨3, "C", 5⟩]] [] [] [Page.ok [⟨8, "E", none⟩]] 1 7
    (by decide) (by decide)
  exact ⟨h.1, h.2.2.2⟩

/-- C9: per-player diagnostics accumulate into a duplicate-free
collection displayed in sorted order, and a diagnostic never aborts the
run: the violation list does not depend on the diagnostics accumulated
so far, and every roster entry contributes through the same per-entry
evaluation regardless of earlier diagnostics. -/
theorem claim_C9 (r : Option RosterResponse) (m : List MappingRow)
    (b p : Int → Option StatsDict) (tn : String)
    (items : List RosterItem) (v0 : List Violation) (d0 d0' : List String) :
    (find_ineligible_minors r m b p).2.Nodup
    ∧ List.Sorted (· ≤ ·)
        (displayed_diagnostics (find_ineligible_minors r m b p).2)
    ∧ (items.foldl (process_player m b p tn) (v0, d0)).1
        = (items.foldl (process_player m b p tn) (v0, d0')).1
    ∧ (items.foldl (process_player m b p tn) (v0, d0)).1
        = v0 ++ items.filterMap (entry_violation m b p tn) := by
  refine ⟨find_snd_nodup r m b p, ?_, ?_, ?_⟩
  · exact List.sorted_insertionSort _ _
  · rw [foldl_process_fst, foldl_process_fst]
  · exact foldl_process_fst m b p tn items (v0, d0)

end MLBChecker
